import Mathlib

/-!
Verification of the scraping/ingestion core of the news_scraper repository.

The embedding models the Python modules shallowly:

* `app/news/scraper.py` — `get_dom`, `format_datetime`, the twelve per-source
  extractors and `scrape_all_news`. The lxml DOM is abstracted: each candidate
  block is represented by the strings the per-block xpath sub-queries return
  (`Block` / `FoxBlock`), and a fetched page by `Option (List Block)`
  (`none` models a fetch for which `get_dom` returned `None`).
* `app/news/data_loader.py` — `parse_publication_datetime`,
  `load_and_deduplicate_csv_data` (pandas `drop_duplicates(subset=['link'],
  keep='last')`) and `save_articles_to_database` (Django `get_or_create`
  keyed on `url`). The database is a list of `Article` records; the external
  dateutil parser is an abstract `p : String → Option Nat` where `Nat`
  stands for a point in time and `none` for a raised `ValueError`/`TypeError`.
* `app/news/admin_views.py` — `run_scraping_batch` over the orchestrator.
* `app/news/ai_client.py` — `GroqAIClient._generate_content` and
  `personalize_recommendations`.

Python string primitives (`strip`, `split`, `replace`, `in`, `int(...)`,
`lower`) are re-implemented on `List Char` by structural recursion so that
every definition evaluates inside the kernel.
-/

namespace NewsScraper

/-- Whitespace test used by the model of Python `str.strip`. -/
def isPySpace (c : Char) : Bool :=
  c == ' ' || c == '\t' || c == '\n' || c == '\r'

def stripChars (cs : List Char) : List Char :=
  ((cs.dropWhile isPySpace).reverse.dropWhile isPySpace).reverse

/-- Model of Python `str.strip()`. -/
def pyStrip (s : String) : String :=
  ⟨stripChars s.data⟩

/-- `leadMatch pat s` holds when `pat` is a leading block of `s`. -/
def leadMatch : List Char → List Char → Bool
  | [], _ => true
  | _ :: _, [] => false
  | p :: ps, c :: cs => p == c && leadMatch ps cs

/-- Fuel-indexed worker for `pySplit`; the fuel is the length of the string,
which bounds the number of steps. -/
def splitGo (pat : List Char) : Nat → List Char → List (List Char)
  | _, [] => [[]]
  | 0, s => [s]
  | fuel + 1, c :: cs =>
    if pat ≠ [] ∧ leadMatch pat (c :: cs) then
      [] :: splitGo pat fuel ((c :: cs).drop pat.length)
    else
      match splitGo pat fuel cs with
      | [] => [[c]]
      | h :: t => (c :: h) :: t

/-- Model of Python `s.split(sep)` for a non-empty separator. -/
def pySplit (s sep : String) : List String :=
  (splitGo sep.data s.data.length s.data).map List.asString

/-- Model of Python `pat in s` (substring test) for a non-empty pattern. -/
def containsSub (s pat : String) : Prop :=
  2 ≤ (pySplit s pat).length

instance (s pat : String) : Decidable (containsSub s pat) :=
  inferInstanceAs (Decidable (2 ≤ (pySplit s pat).length))

/-- Model of Python `a or b` on strings (empty string is falsy). -/
def pyOr (a b : String) : String :=
  if a = "" then b else a

/-- Model of Python `s.split('?')[0]`. -/
def upToQ (s : String) : String :=
  (pySplit s "?").headD s

/-- Model of Python `s.split(sep)[-1]`. -/
def lastSplit (s sep : String) : String :=
  (pySplit s sep).getLastD s

/-- Model of Python `s.replace(pat, rep)` for a non-empty pattern. -/
def pyReplace (s pat rep : String) : String :=
  String.intercalate rep (pySplit s pat)

/-- Model of Python `s.lower()`. -/
def pyLower (s : String) : String :=
  ⟨s.data.map Char.toLower⟩

/-- Digit-string evaluation used by the model of Python `int(...)`. -/
def digitsVal (cs : List Char) : Option Nat :=
  if cs ≠ [] ∧ cs.all Char.isDigit then
    some (cs.foldl (fun n c => 10 * n + (c.toNat - 48)) 0)
  else none

/-- Model of Python `int(s)`: strips whitespace, optional sign, digits only;
`none` models a raised `ValueError`. -/
def pyInt (s : String) : Option Int :=
  match (pyStrip s).data with
  | '-' :: ds => (digitsVal ds).map (fun n => -(n : Int))
  | '+' :: ds => (digitsVal ds).map (fun n => (n : Int))
  | ds => (digitsVal ds).map (fun n => (n : Int))

/-- `scraper.format_datetime`: the display-string normalizer.
`p` abstracts `dateutil.parser.parse(·, fuzzy=True)` (`none` = raised) and
`fmt` abstracts `dt.strftime("%-d %b %Y, %H:%M")`.
On parse failure the source returns `datetime_str.strip()`, not `""`. -/
def format_datetime (p : String → Option Nat) (fmt : Nat → String) (s : String) : String :=
  if s = "" then ""
  else if pyStrip s = "" then ""
  else
    match p s with
    | some dt => fmt dt
    | none => pyStrip s

/-- `DataLoader.parse_publication_datetime`: the point-in-time normalizer.
Empty/whitespace input short-circuits to `none`; otherwise the dateutil
parse of the stripped string is returned, with a raised
`ValueError`/`TypeError` (`p _ = none`) caught and turned into `none`. -/
def parse_publication_datetime (p : String → Option Nat) (s : String) : Option Nat :=
  if s = "" then none
  else if pyStrip s = "" then none
  else
    match p (pyStrip s) with
    | some dt => some dt
    | none => none

/-- One raw scraped article row, i.e. the dict each extractor appends and the
column set of the CSV batch artifact. -/
structure RawRecord where
  title : String
  link : String
  image : String
  source : String
  category : String
  datetime : String
deriving DecidableEq

/-- One candidate DOM block, abstracted to the strings its per-block xpath
sub-queries return (`get_from_xpath` yields `""` when nothing matches).
`dt1`/`dt2` are the first and second datetime sub-query results for the
extractors that chain them with `or`. -/
structure Block where
  title : String
  href : String
  image : String
  dt1 : String
  dt2 : String
deriving DecidableEq

/-- A Fox News candidate block: its datetime sub-query (`get_all_results`)
returns a list of strings, empty when nothing matches. -/
structure FoxBlock where
  title : String
  href : String
  image : String
  dtList : List String
deriving DecidableEq

/-- A Fox News row before pandas post-processing: `datetime` is still the
raw list of strings. -/
structure FoxRow where
  title : String
  link : String
  image : String
  source : String
  category : String
  datetime : List String
deriving DecidableEq

/-- `scraper.scrape_tech_techcrunch` on an already-fetched page. -/
def scrape_tech_techcrunch (p : String → Option Nat) (fmt : Nat → String)
    (dom : Option (List Block)) : List RawRecord :=
  match dom with
  | none => []
  | some blocks =>
    blocks.filterMap (fun b =>
      let datetime_str := format_datetime p fmt (pyOr b.dt1 "")
      let row : RawRecord :=
        { title := b.title, link := b.href, image := b.image,
          source := "TechCrunch", category := "technology", datetime := datetime_str }
      if row.title ≠ "" then some row else none)

/-- `scraper.scrape_tech_theverge`. -/
def scrape_tech_theverge (p : String → Option Nat) (fmt : Nat → String)
    (dom : Option (List Block)) : List RawRecord :=
  match dom with
  | none => []
  | some blocks =>
    blocks.filterMap (fun b =>
      let datetime_str := format_datetime p fmt (pyOr b.dt1 "")
      let image_url :=
        if b.image ≠ "" then upToQ (lastSplit b.image ",  https://platform.theverge.com")
        else b.image
      let row : RawRecord :=
        { title := b.title, link := "https://www.theverge.com" ++ b.href, image := image_url,
          source := "The Verge", category := "technology", datetime := datetime_str }
      if row.title ≠ "" then some row else none)

/-- `scraper.scrape_economy_indianexpress`. -/
def scrape_economy_indianexpress (p : String → Option Nat) (fmt : Nat → String)
    (dom : Option (List Block)) : List RawRecord :=
  match dom with
  | none => []
  | some blocks =>
    blocks.filterMap (fun b =>
      let datetime_str := format_datetime p fmt (pyOr b.dt1 "")
      let image_url := if b.image ≠ "" then upToQ b.image else b.image
      let row : RawRecord :=
        { title := b.title, link := b.href, image := image_url,
          source := "Indian Express", category := "economy", datetime := datetime_str }
      if row.title ≠ "" then some row else none)

/-- `scraper.scrape_economy_economictimes`. -/
def scrape_economy_economictimes (p : String → Option Nat) (fmt : Nat → String)
    (dom : Option (List Block)) : List RawRecord :=
  match dom with
  | none => []
  | some blocks =>
    blocks.filterMap (fun b =>
      let datetime_str := format_datetime p fmt (pyOr (pyOr b.dt1 b.dt2) "")
      let image_url :=
        if b.image ≠ "" then
          pyReplace (upToQ b.image) ",width-160,height-120," ",width-640,height-480,"
        else b.image
      let row : RawRecord :=
        { title := b.title, link := "https://economictimes.indiatimes.com" ++ b.href,
          image := image_url, source := "Economic Times", category := "economy",
          datetime := datetime_str }
      if row.title ≠ "" then some row else none)

/-- `scraper.scrape_sports_indianexpress`. -/
def scrape_sports_indianexpress (p : String → Option Nat) (fmt : Nat → String)
    (dom : Option (List Block)) : List RawRecord :=
  match dom with
  | none => []
  | some blocks =>
    blocks.filterMap (fun b =>
      let datetime_str := format_datetime p fmt (pyOr b.dt1 "")
      let image_url := if b.image ≠ "" then upToQ b.image else b.image
      let row : RawRecord :=
        { title := b.title, link := b.href, image := image_url,
          source := "Indian Express", category := "sports", datetime := datetime_str }
      if row.title ≠ "" then some row else none)

/-- `scraper.scrape_sports_hindustantimes`. -/
def scrape_sports_hindustantimes (p : String → Option Nat) (fmt : Nat → String)
    (dom : Option (List Block)) : List RawRecord :=
  match dom with
  | none => []
  | some blocks =>
    blocks.filterMap (fun b =>
      let datetime_str := format_datetime p fmt (pyOr (pyOr b.dt1 b.dt2) "")
      let image_url :=
        if b.image ≠ "" then pyReplace (upToQ b.image) "/148x111/" "/550x309/"
        else b.image
      let row : RawRecord :=
        { title := b.title, link := b.href, image := image_url,
          source := "Hindustan Times", category := "sports", datetime := datetime_str }
      if row.title ≠ "" then some row else none)

/-- `scraper.scrape_politics_economictimes`. -/
def scrape_politics_economictimes (p : String → Option Nat) (fmt : Nat → String)
    (dom : Option (List Block)) : List RawRecord :=
  match dom with
  | none => []
  | some blocks =>
    blocks.filterMap (fun b =>
      let datetime_str := format_datetime p fmt (pyOr (pyOr b.dt1 b.dt2) "")
      let image_url :=
        if b.image ≠ "" then
          pyReplace (upToQ b.image) ",width-160,height-120" ",width-640,height-480"
        else b.image
      let row : RawRecord :=
        { title := b.title, link := "https://economictimes.indiatimes.com" ++ b.href,
          image := image_url, source := "Economic Times", category := "politics",
          datetime := datetime_str }
      if row.title ≠ "" then some row else none)

/-- `scraper.scrape_politics_nytimes`: the raw timestamp is reassembled from
the article path segments `href.replace("/interactive","").split('/')[1:4]`. -/
def scrape_politics_nytimes (p : String → Option Nat) (fmt : Nat → String)
    (dom : Option (List Block)) : List RawRecord :=
  match dom with
  | none => []
  | some blocks =>
    blocks.filterMap (fun b =>
      let datetime_str :=
        pyOr (String.intercalate "-"
          (((pySplit (pyReplace b.href "/interactive" "") "/").drop 1).take 3)) ""
      let datetime_str := format_datetime p fmt datetime_str
      let image_url :=
        if b.image ≠ "" then
          pyReplace (upToQ (lastSplit b.image ", ")) "-square320" "-square640"
        else b.image
      let row : RawRecord :=
        { title := b.title, link := "https://www.nytimes.com" ++ b.href, image := image_url,
          source := "New York Times", category := "politics", datetime := datetime_str }
      if row.title ≠ "" then some row else none)

/-- `scraper.scrape_lifestyle_indianexpress`. -/
def scrape_lifestyle_indianexpress (p : String → Option Nat) (fmt : Nat → String)
    (dom : Option (List Block)) : List RawRecord :=
  match dom with
  | none => []
  | some blocks =>
    blocks.filterMap (fun b =>
      let datetime_str := format_datetime p fmt (pyOr b.dt1 "")
      let image_url := if b.image ≠ "" then upToQ b.image else b.image
      let row : RawRecord :=
        { title := b.title, link := b.href, image := image_url,
          source := "Indian Express", category := "lifestyle", datetime := datetime_str }
      if row.title ≠ "" then some row else none)

/-- `scraper.scrape_entertainment_indianexpress`. -/
def scrape_entertainment_indianexpress (p : String → Option Nat) (fmt : Nat → String)
    (dom : Option (List Block)) : List RawRecord :=
  match dom with
  | none => []
  | some blocks =>
    blocks.filterMap (fun b =>
      let datetime_str := format_datetime p fmt (pyOr b.dt1 "")
      let image_url := if b.image ≠ "" then upToQ b.image else b.image
      let row : RawRecord :=
        { title := b.title, link := b.href, image := image_url,
          source := "Indian Express", category := "entertainment", datetime := datetime_str }
      if row.title ≠ "" then some row else none)

/-- `scraper.scrape_entertainment_variety`: keeps a candidate only when the
title is non-empty, the link contains `variety.com` and `/film/`, and the
formatted datetime contains a comma-space. -/
def scrape_entertainment_variety (p : String → Option Nat) (fmt : Nat → String)
    (dom : Option (List Block)) : List RawRecord :=
  match dom with
  | none => []
  | some blocks =>
    blocks.filterMap (fun b =>
      let datetime_str := format_datetime p fmt (pyOr b.dt1 "")
      let image_url := if b.image ≠ "" then upToQ b.image else b.image
      let link := b.href
      let row : RawRecord :=
        { title := b.title, link := link, image := image_url,
          source := "Variety", category := "entertainment", datetime := datetime_str }
      if row.title ≠ "" ∧ containsSub link "variety.com" ∧ containsSub link "/film/" ∧
          containsSub datetime_str ", " then
        some row
      else none)

/-- The candidate-filter stage of `scraper.scrape_lifestyle_foxnews`: keep a
block when its title is non-empty and the completed link contains
`/health/`. -/
def foxAccepted (blocks : List FoxBlock) : List FoxRow :=
  blocks.filterMap (fun b =>
    let link := "https://www.foxnews.com" ++ b.href
    let image_url :=
      if b.image ≠ "" then pyReplace (upToQ b.image) "/348/196/" "/720/405/"
      else b.image
    let row : FoxRow :=
      { title := b.title, link := link, image := image_url,
        source := "Fox News", category := "lifestyle", datetime := b.dtList }
    if row.title ≠ "" ∧ containsSub link "/health/" then some row else none)

/-- pandas `drop_duplicates('link')` with the default `keep='first'`:
the first row with each link survives, in order. -/
def dedupFirst : List FoxRow → List String → List FoxRow
  | [], _ => []
  | r :: rest, seen =>
    if r.link ∈ seen then dedupFirst rest seen
    else r :: dedupFirst rest (r.link :: seen)

/-- The pandas post-processing of `scrape_lifestyle_foxnews` on a non-empty
row set: dedup by link, keep rows whose datetime list is non-empty, then
format the first datetime entry. -/
def foxPipeline (p : String → Option Nat) (fmt : Nat → String)
    (rows : List FoxRow) : List RawRecord :=
  ((dedupFirst rows []).filter (fun r => r.datetime.length != 0)).map (fun r =>
    { title := r.title, link := r.link, image := r.image, source := r.source,
      category := r.category, datetime := format_datetime p fmt (r.datetime.headD "") })

/-- `scraper.scrape_lifestyle_foxnews`. When the fetch succeeded but no block
passed the filters, `pd.DataFrame(data)` is an empty frame with no columns,
so `df.drop_duplicates('link', ...)` raises `KeyError` — modelled as
`Except.error ()`. -/
def scrape_lifestyle_foxnews (p : String → Option Nat) (fmt : Nat → String)
    (dom : Option (List FoxBlock)) : Except Unit (List RawRecord) :=
  match dom with
  | none => Except.ok []
  | some blocks =>
    let data := foxAccepted blocks
    if data = [] then Except.error ()
    else Except.ok (foxPipeline p fmt data)

/-- Outcome of one fetch attempt inside `scraper.get_dom`: a raised network
error, or a response with a status code and a body. -/
inductive FetchAttempt (β : Type) where
  | netErr : FetchAttempt β
  | resp (status : Nat) (body : β) : FetchAttempt β

/-- An attempt succeeds when the status is 200 and the body parses. -/
def attemptOK {β δ : Type} (parse : β → Option δ) : FetchAttempt β → Bool
  | .netErr => false
  | .resp status body => status == 200 && (parse body).isSome

/-- The retry loop of `scraper.get_dom` over the attempt outcomes it would
observe, returning the result and the number of attempts performed. A parse
failure on a 200 response is the raised-exception path of the source: caught,
counted as a failed attempt, loop continues. -/
def get_dom_loop {β δ : Type} (parse : β → Option δ) :
    List (FetchAttempt β) → Option δ × Nat
  | [] => (none, 0)
  | .netErr :: rest =>
    let r := get_dom_loop parse rest
    (r.1, r.2 + 1)
  | .resp status body :: rest =>
    if status = 200 then
      match parse body with
      | some d => (some d, 1)
      | none =>
        let r := get_dom_loop parse rest
        (r.1, r.2 + 1)
    else
      let r := get_dom_loop parse rest
      (r.1, r.2 + 1)

/-- `scraper.get_dom`: `for attempt in range(5)` over the attempt oracle. -/
def get_dom {β δ : Type} (parse : β → Option δ) (attempts : Nat → FetchAttempt β) :
    Option δ × Nat :=
  get_dom_loop parse ((List.range 5).map attempts)

/-- Records contributed by one extractor invocation: an extractor that raised
contributes none. -/
def okRecords (r : Except String (List RawRecord)) : List RawRecord :=
  match r with
  | .ok data => data
  | .error _ => []

def isErr (r : Except String (List RawRecord)) : Bool :=
  match r with
  | .ok _ => false
  | .error _ => true

/-- `scraper.scrape_all_news` / `admin_views.scrape_all_news_with_progress`:
each registered extractor is invoked once; its outcome is either a record
list or a raised exception (`Except.error`). A raising extractor contributes
zero records and its source name is reported as failed
(`log_scraper_result(source_name, 0, False)`); the loop continues. -/
def scrape_all_news :
    List (String × Except String (List RawRecord)) → List RawRecord × List String
  | [] => ([], [])
  | s :: rest =>
    match s.2 with
    | .ok data =>
      let r := scrape_all_news rest
      (data ++ r.1, r.2)
    | .error _ =>
      let r := scrape_all_news rest
      (r.1, s.1 :: r.2)

/-- Final state of one batch in `admin_views.run_scraping_batch`:
status, `current_stage`, and the CSV artifact written (if any). -/
structure BatchOutcome where
  status : String
  current_stage : String
  csv : Option (List RawRecord)
deriving DecidableEq

/-- `admin_views.run_scraping_batch`: `if scraped_data:` writes the CSV and
marks the batch completed, else marks it failed with stage
`No articles were scraped` and writes nothing. -/
def run_scraping_batch (scrapers : List (String × Except String (List RawRecord))) :
    BatchOutcome :=
  let scraped_data := (scrape_all_news scrapers).1
  if scraped_data ≠ [] then
    { status := "completed", current_stage := "Completed successfully!",
      csv := some scraped_data }
  else
    { status := "failed", current_stage := "No articles were scraped", csv := none }

/-- pandas `drop_duplicates(subset=['link'], keep='last')`: a row survives
exactly when no later row has the same link, in order. -/
def keepLast : List RawRecord → List RawRecord
  | [] => []
  | r :: rest =>
    if rest.any (fun q => q.link == r.link) then keepLast rest
    else r :: keepLast rest

/-- `DataLoader.load_and_deduplicate_csv_data`: the CSV batches, ordered
oldest-first by their timestamped filenames, are concatenated and
deduplicated by link keeping the last occurrence. -/
def load_and_deduplicate_csv_data (batches : List (List RawRecord)) : List RawRecord :=
  keepLast batches.flatten

/-- `models.Article`: `created_at` has `auto_now_add=True`, i.e. it is set
exactly once at insertion. -/
structure Article where
  title : String
  image : String
  url : String
  source : String
  category : String
  published_at : Option Nat
  created_at : Nat
deriving DecidableEq

/-- Django `Article.objects.get_or_create(url=..., defaults=...)` against the
list-of-rows storage model: returns the (possibly extended) table, the found
or created row, and the `created` flag. -/
def get_or_create (db : List Article) (url : String) (defaults : Article) :
    List Article × Article × Bool :=
  match db.find? (fun a => a.url == url) with
  | some a => (db, a, false)
  | none => (db ++ [defaults], defaults, true)

/-- The update branch of `DataLoader.save_articles_to_database`: overwrite
title/source/category/image unconditionally; set `published_at` only when the
new parse succeeded (`published_at` truthy) and the stored value is `None`. -/
def updateArticle (p : String → Option Nat) (row : RawRecord) (a : Article) : Article :=
  let published_at := parse_publication_datetime p row.datetime
  { a with
    title := row.title, source := row.source, category := row.category, image := row.image,
    published_at :=
      if published_at.isSome ∧ a.published_at = none then published_at
      else a.published_at }

/-- One iteration of the row loop in `DataLoader.save_articles_to_database`:
`get_or_create` keyed on the link, then either count the creation or apply
the update branch (`article.save()` rewrites the row in place). -/
def upsertRow (p : String → Option Nat) (now : Nat) (db : List Article)
    (row : RawRecord) : List Article × Nat :=
  let published_at := parse_publication_datetime p row.datetime
  let defaults : Article :=
    { title := row.title, image := row.image, url := row.link, source := row.source,
      category := row.category, published_at := published_at, created_at := now }
  let r := get_or_create db row.link defaults
  if r.2.2 then (r.1, 1)
  else (r.1.map (fun a => if a.url = row.link then updateArticle p row a else a), 0)

/-- `DataLoader.save_articles_to_database`: iterate the deduplicated rows,
upserting each; the function returns `articles_created` only. -/
def save_articles_to_database (p : String → Option Nat) (now : Nat) :
    List Article → List RawRecord → List Article × Nat
  | db, [] => (db, 0)
  | db, row :: rest =>
    let step := upsertRow p now db row
    let r := save_articles_to_database p now step.1 rest
    (r.1, step.2 + r.2)

/-- A sequence of ingestion runs (`DataLoader.load_all_data` called
repeatedly) against the same stored collection. -/
def ingestAll (p : String → Option Nat) (now : Nat) :
    List Article → List (List RawRecord) → List Article
  | db, [] => db
  | db, batch :: rest => ingestAll p now (save_articles_to_database p now db batch).1 rest

/-- A headline dict as `personalize_recommendations` sees it. -/
structure Headline where
  title : String
  source : String
deriving DecidableEq

/-- Outcome of the backing Groq call: a completion text, or a raised
exception whose `str(e)` is recorded. -/
inductive SvcResult where
  | ok (s : String)
  | err (msg : String)

/-- `GroqAIClient._generate_content`: never raises — a missing client or a
raised API error is converted into a static message string. -/
def generate_content (client : Bool) (svc : SvcResult) : String :=
  if client = false then "AI service unavailable. Please check configuration."
  else
    match svc with
    | .ok s => s
    | .err e =>
      if containsSub e "429" ∨ containsSub (pyLower e) "rate limit" then
        "AI service rate limit reached. Please wait a few minutes and try again."
      else if containsSub e "401" ∨ containsSub (pyLower e) "api key" then
        "AI service authentication failed. Please contact admin to check the API key configuration."
      else
        "Sorry, I couldn\x27t generate a response at this time. Please try again later."

/-- The index-parsing loop of `personalize_recommendations`:
`int(item.strip()) - 1` for each comma-separated item, kept when in range. -/
def parseIndices (response : String) (n : Nat) : List Nat :=
  (pySplit response ",").filterMap (fun item =>
    match pyInt item with
    | some i => if 0 ≤ i - 1 ∧ i - 1 < (n : Int) then some (i - 1).toNat else none
    | none => none)

/-- One pass of the inner `for headline in headlines` fill loop: append each
headline not yet present, breaking as soon as the list reaches length 5. -/
def fillPass : List Headline → List Headline → List Headline
  | [], acc => acc
  | h :: hs, acc =>
    if h ∈ acc then fillPass hs acc
    else
      let acc2 := acc ++ [h]
      if 5 ≤ acc2.length then acc2 else fillPass hs acc2

/-- The `while len(recommended_headlines) < 5 and len(recommended_headlines) <
len(headlines)` loop, fuel-indexed. A pass that adds nothing leaves the state
(and hence the loop condition) unchanged, so the Python loop terminates only
if it stops within 6 iterations (each productive pass grows the list, which
starts below 5); `none` therefore models non-termination of the source. -/
def fillLoop (headlines : List Headline) : Nat → List Headline → Option (List Headline)
  | 0, acc => if acc.length < 5 ∧ acc.length < headlines.length then none else some acc
  | fuel + 1, acc =>
    if acc.length < 5 ∧ acc.length < headlines.length then
      fillLoop headlines fuel (fillPass headlines acc)
    else some acc

/-- `GroqAIClient.personalize_recommendations`. `none` models a
non-terminating run of the fill loop (see `fillLoop`). The source's own
`except` fallback `return headlines[:5]` is unreachable because
`_generate_content` never raises. -/
def personalize_recommendations (client : Bool) (svc : SvcResult)
    (user_interests : List String) (headlines : List Headline) :
    Option (List Headline) :=
  if headlines = [] then some []
  else if user_interests = [] then some (headlines.take 5)
  else
    let response := generate_content client svc
    let recommended_indices := parseIndices response headlines.length
    let recommended_headlines := recommended_indices.filterMap (fun idx =>
      if idx < headlines.length then headlines.get? idx else none)
    match fillLoop headlines 6 recommended_headlines with
    | some filled => some (filled.take 5)
    | none => none


/-! ### Concrete fixtures used by witnesses -/

/-- A date parser that rejects everything (as dateutil does on inputs with
no date tokens). -/
def wParse : String → Option Nat := fun _ => none

def wFmt : Nat → String := fun _ => ""

/-- A candidate block accepted by every generic extractor's filters. -/
def wBlock : Block :=
  { title := "T", href := "https://variety.com/film/x", image := "",
    dt1 := "3 Oct 2025, 16:42", dt2 := "" }

/-- A candidate block accepted by the Fox News extractor's filters. -/
def wFox : FoxBlock := { title := "T", href := "/health/a", image := "", dtList := ["now"] }


/-! ### Helper lemmas: CSV deduplication (`keepLast`) -/

theorem keepLast_subset {r : RawRecord} {l : List RawRecord} (h : r ∈ keepLast l) : r ∈ l := by
  induction l with
  | nil => simp [keepLast] at h
  | cons a rest ih =>
    rw [keepLast] at h
    split at h
    · exact List.mem_cons_of_mem _ (ih h)
    · rcases List.mem_cons.mp h with h | h
      · exact h ▸ List.mem_cons_self _ _
      · exact List.mem_cons_of_mem _ (ih h)

theorem keepLast_nodup (l : List RawRecord) : ((keepLast l).map RawRecord.link).Nodup := by
  induction l with
  | nil => simp [keepLast]
  | cons a rest ih =>
    rw [keepLast]
    split
    · exact ih
    · rename_i hany
      refine List.nodup_cons.mpr ⟨?_, ih⟩
      intro hmem
      rcases List.mem_map.mp hmem with ⟨q, hq, hlink⟩
      exact hany (List.any_eq_true.mpr ⟨q, keepLast_subset hq, by simp [hlink]⟩)

theorem keepLast_mem_find {r : RawRecord} {l : List RawRecord} (h : r ∈ keepLast l) :
    l.reverse.find? (fun q => q.link == r.link) = some r := by
  induction l with
  | nil => simp [keepLast] at h
  | cons a rest ih =>
    rw [keepLast] at h
    rw [List.reverse_cons, List.find?_append]
    split at h
    · rw [ih h]; rfl
    · rename_i hany
      rcases List.mem_cons.mp h with rfl | h
      · have hnone : rest.reverse.find? (fun q => q.link == r.link) = none := by
          rw [List.find?_eq_none]
          intro q hq hbeq
          exact hany (List.any_eq_true.mpr ⟨q, List.mem_reverse.mp hq, hbeq⟩)
        simp [hnone, List.find?]
      · rw [ih h]; rfl

theorem keepLast_covers {l : List RawRecord} :
    ∀ r ∈ l, ∃ r2 ∈ keepLast l, r2.link = r.link := by
  induction l with
  | nil => simp
  | cons a rest ih =>
    intro r hr
    rw [keepLast]
    split
    · rename_i hany
      rcases List.mem_cons.mp hr with rfl | hr
      · rcases List.any_eq_true.mp hany with ⟨q, hq, hbeq⟩
        rcases ih q hq with ⟨r2, hr2, hlink⟩
        exact ⟨r2, hr2, by rw [hlink, beq_iff_eq.mp hbeq]⟩
      · exact ih r hr
    · rcases List.mem_cons.mp hr with rfl | hr
      · exact ⟨r, List.mem_cons_self _ _, rfl⟩
      · rcases ih r hr with ⟨r2, hr2, hlink⟩
        exact ⟨r2, List.mem_cons_of_mem _ hr2, hlink⟩

/-! ### Helper lemmas: page fetcher (`get_dom`) -/

theorem get_dom_loop_count {β δ : Type} (parse : β → Option δ) (l : List (FetchAttempt β)) :
    (get_dom_loop parse l).2 ≤ l.length := by
  induction l with
  | nil => simp [get_dom_loop]
  | cons a rest ih =>
    cases a with
    | netErr =>
      rw [get_dom_loop]
      simpa using Nat.succ_le_succ ih
    | resp status body =>
      rw [get_dom_loop]
      by_cases h : status = 200
      · rw [if_pos h]
        cases hp : parse body with
        | some d => simp
        | none => simpa using Nat.succ_le_succ ih
      · rw [if_neg h]
        simpa using Nat.succ_le_succ ih

theorem get_dom_loop_isSome {β δ : Type} (parse : β → Option δ) (l : List (FetchAttempt β)) :
    (get_dom_loop parse l).1.isSome = l.any (attemptOK parse) := by
  induction l with
  | nil => simp [get_dom_loop]
  | cons a rest ih =>
    cases a with
    | netErr =>
      rw [get_dom_loop]
      simpa [attemptOK] using ih
    | resp status body =>
      rw [get_dom_loop]
      by_cases h : status = 200
      · subst h
        cases hp : parse body with
        | some d => simp [attemptOK, hp]
        | none => simp [attemptOK, hp, ih]
      · simp [attemptOK, h, ih, beq_iff_eq]

/-! ### Claims C2, C5, C10, C3 -/

/-- C2: the point-in-time normalizer `parse_publication_datetime` is total
(the source catches the parser's `ValueError`/`TypeError`) and returns
`none` for every input the date parser cannot handle; in particular the
empty string, whitespace-only strings, and `"garbled###"` (on which
dateutil's fuzzy parse raises, i.e. `p` returns `none`) all yield `none`. -/
theorem C2_normalize_timestamp_null_on_failure (p : String → Option Nat) (s : String) :
    (p (pyStrip s) = none → parse_publication_datetime p s = none)
    ∧ parse_publication_datetime p "" = none
    ∧ (pyStrip s = "" → parse_publication_datetime p s = none)
    ∧ (p "garbled###" = none → parse_publication_datetime p "garbled###" = none) := by
  refine ⟨?_, ?_, ?_, ?_⟩
  · intro hp
    by_cases h1 : s = ""
    · simp [parse_publication_datetime, h1]
    · by_cases h2 : pyStrip s = ""
      · simp [parse_publication_datetime, h1, h2]
      · simp [parse_publication_datetime, h1, h2, hp]
  · simp [parse_publication_datetime]
  · intro h2
    by_cases h1 : s = ""
    · simp [parse_publication_datetime, h1]
    · simp [parse_publication_datetime, h1, h2]
  · intro hp
    have h1 : ("garbled###" : String) ≠ "" := by decide
    have h3 : pyStrip "garbled###" = "garbled###" := by decide
    simp [parse_publication_datetime, h1, h3, hp]

/-- Witness for C2: a parser that rejects everything (as dateutil does on
these inputs) yields `none` on `"garbled###"`, `""` and whitespace. -/
theorem C2_normalize_timestamp_null_on_failure_witness :
    parse_publication_datetime (fun _ => none) "garbled###" = none
    ∧ parse_publication_datetime (fun _ => none) "" = none
    ∧ parse_publication_datetime (fun _ => none) "   " = none
    ∧ parse_publication_datetime (fun _ => none) "6 Oct 2025" = none :=
  ⟨(C2_normalize_timestamp_null_on_failure (fun _ => none) "garbled###").2.2.2 rfl,
   (C2_normalize_timestamp_null_on_failure (fun _ => none) "").2.1,
   (C2_normalize_timestamp_null_on_failure (fun _ => none) "   ").2.2.1 (by decide),
   (C2_normalize_timestamp_null_on_failure (fun _ => none) "6 Oct 2025").1 rfl⟩

/-- C5: `get_dom` performs at most 5 attempts, returns a parsed document
exactly when one of the (at most 5) attempts yields HTTP 200 with a
parseable body, and returns `none` — rather than raising — when all five
attempts fail. -/
theorem C5_get_dom_retries {β δ : Type} (parse : β → Option δ)
    (attempts : Nat → FetchAttempt β) :
    (get_dom parse attempts).2 ≤ 5
    ∧ ((get_dom parse attempts).1.isSome = true ↔
        ∃ i < 5, attemptOK parse (attempts i) = true)
    ∧ ((∀ i < 5, attemptOK parse (attempts i) = false) →
        (get_dom parse attempts).1 = none) := by
  have hcount := get_dom_loop_count parse ((List.range 5).map attempts)
  have hsome := get_dom_loop_isSome parse ((List.range 5).map attempts)
  refine ⟨?_, ?_, ?_⟩
  · simpa [get_dom] using hcount
  · rw [get_dom, hsome, List.any_eq_true]
    constructor
    · rintro ⟨x, hx, hok⟩
      rcases List.mem_map.mp hx with ⟨i, hi, rfl⟩
      exact ⟨i, List.mem_range.mp hi, hok⟩
    · rintro ⟨i, hi, hok⟩
      exact ⟨attempts i, List.mem_map.mpr ⟨i, List.mem_range.mpr hi, rfl⟩, hok⟩
  · intro hall
    have hfalse : (get_dom parse attempts).1.isSome = false := by
      rw [get_dom, hsome, List.any_eq_false]
      intro x hx
      rcases List.mem_map.mp hx with ⟨i, hi, rfl⟩
      simp [hall i (List.mem_range.mp hi)]
    exact Option.not_isSome_iff_eq_none.mp (by simp [hfalse])

/-- Witness for C5: with every attempt raising a network error, `get_dom`
returns `none`. -/
theorem C5_get_dom_retries_witness :
    (get_dom (fun _ : Unit => (none : Option Unit)) (fun _ => FetchAttempt.netErr)).1 =
      none :=
  (C5_get_dom_retries _ _).2.2 (fun _ _ => rfl)

/-- C10: a batch writes a CSV artifact exactly when the orchestrator
collected at least one record, in which case it is marked completed; a
zero-record run is marked failed with stage `No articles were scraped` and
writes nothing. -/
theorem C10_batch_csv_iff_records
    (scrapers : List (String × Except String (List RawRecord))) :
    (run_scraping_batch scrapers).csv =
      (if (scrape_all_news scrapers).1 = [] then none
       else some (scrape_all_news scrapers).1)
    ∧ (run_scraping_batch scrapers).status =
      (if (scrape_all_news scrapers).1 = [] then "failed" else "completed")
    ∧ (run_scraping_batch scrapers).current_stage =
      (if (scrape_all_news scrapers).1 = [] then "No articles were scraped"
       else "Completed successfully!")
    ∧ ((run_scraping_batch scrapers).csv.isSome = true ↔
        (scrape_all_news scrapers).1 ≠ []) := by
  by_cases h : (scrape_all_news scrapers).1 = [] <;>
    simp [run_scraping_batch, h]

/-- C3: merging batches oldest-first and deduplicating keeps exactly one
record per distinct link — the last occurrence in concatenation order, i.e.
the most recently produced batch's values — and on
`[[{link A, title X}], [{link A, title Y}]]` retains title `Y`. -/
theorem C3_dedup_most_recent_wins (batches : List (List RawRecord)) (r : RawRecord) :
    ((load_and_deduplicate_csv_data batches).map RawRecord.link).Nodup
    ∧ (r ∈ batches.flatten →
        ∃ r2 ∈ load_and_deduplicate_csv_data batches, r2.link = r.link)
    ∧ (r ∈ load_and_deduplicate_csv_data batches →
        batches.flatten.reverse.find? (fun q => q.link == r.link) = some r)
    ∧ load_and_deduplicate_csv_data
        [[{ title := "X", link := "A", image := "", source := "", category := "",
            datetime := "" }],
         [{ title := "Y", link := "A", image := "", source := "", category := "",
            datetime := "" }]] =
        [{ title := "Y", link := "A", image := "", source := "", category := "",
           datetime := "" }] :=
  ⟨keepLast_nodup _, fun h => keepLast_covers r h, fun h => keepLast_mem_find h, by decide⟩

/-- Witness for C3 at the two-batch duplicate-link input. -/
theorem C3_dedup_most_recent_wins_witness :
    (∃ r2 ∈ load_and_deduplicate_csv_data
        [[{ title := "X", link := "A", image := "", source := "", category := "",
            datetime := "" }],
         [{ title := "Y", link := "A", image := "", source := "", category := "",
            datetime := "" }]], r2.link = ("A" : String))
    ∧ ([[{ title := "X", link := "A", image := "", source := "", category := "",
            datetime := "" }],
        [{ title := "Y", link := "A", image := "", source := "", category := "",
            datetime := "" }]] : List (List RawRecord)).flatten.reverse.find?
          (fun q => q.link == ("A" : String)) =
        some { title := "Y", link := "A", image := "", source := "", category := "",
               datetime := "" } :=
  ⟨(C3_dedup_most_recent_wins _
      { title := "Y", link := "A", image := "", source := "", category := "",
        datetime := "" }).2.1 (by decide),
   (C3_dedup_most_recent_wins _
      { title := "Y", link := "A", image := "", source := "", category := "",
        datetime := "" }).2.2.1 (by decide)⟩

/-! ### Helper lemmas: orchestrator -/

theorem scrape_all_news_records (l : List (String × Except String (List RawRecord))) :
    (scrape_all_news l).1 = (l.map (fun s => okRecords s.2)).flatten := by
  induction l with
  | nil => simp [scrape_all_news]
  | cons s rest ih =>
    cases h : s.2 with
    | ok data => simp [scrape_all_news, h, okRecords, ih]
    | error e => simp [scrape_all_news, h, okRecords, ih]

theorem scrape_all_news_failed (l : List (String × Except String (List RawRecord))) :
    (scrape_all_news l).2.length = l.countP (fun s => isErr s.2) := by
  induction l with
  | nil => simp [scrape_all_news]
  | cons s rest ih =>
    cases h : s.2 with
    | ok data => simp [scrape_all_news, h, isErr, ih, List.countP_cons]
    | error e => simp [scrape_all_news, h, isErr, ih, List.countP_cons]

/-! ### Helper lemmas: ingestion -/

theorem update_map_urls (p : String → Option Nat) (row : RawRecord) (db : List Article) :
    (db.map (fun a => if a.url = row.link then updateArticle p row a else a)).map
        Article.url = db.map Article.url := by
  rw [List.map_map]
  refine List.map_congr_left ?_
  intro a _
  by_cases h : a.url = row.link <;> simp [Function.comp, h, updateArticle]

theorem upsertRow_urls (p : String → Option Nat) (now : Nat) (db : List Article)
    (row : RawRecord) :
    (upsertRow p now db row).1.map Article.url =
      (if row.link ∈ db.map Article.url then db.map Article.url
       else db.map Article.url ++ [row.link]) := by
  cases hf : db.find? (fun a => a.url == row.link) with
  | some a =>
    have hurl : a.url = row.link := by simpa using List.find?_some hf
    have hmem : row.link ∈ db.map Article.url :=
      List.mem_map.mpr ⟨a, List.mem_of_find?_eq_some hf, hurl⟩
    simp only [upsertRow, get_or_create, hf, if_pos hmem, Bool.false_eq_true, if_false]
    exact update_map_urls p row db
  | none =>
    have hnmem : row.link ∉ db.map Article.url := by
      intro hmem
      rcases List.mem_map.mp hmem with ⟨a, ha, hurl⟩
      have := List.find?_eq_none.mp hf a ha
      simp [hurl] at this
    simp [upsertRow, get_or_create, hf, hnmem]

theorem upsertRow_created (p : String → Option Nat) (now : Nat) (db : List Article)
    (row : RawRecord) :
    (upsertRow p now db row).2 = if row.link ∈ db.map Article.url then 0 else 1 := by
  cases hf : db.find? (fun a => a.url == row.link) with
  | some a =>
    have hurl : a.url = row.link := by simpa using List.find?_some hf
    have hmem : row.link ∈ db.map Article.url :=
      List.mem_map.mpr ⟨a, List.mem_of_find?_eq_some hf, hurl⟩
    simp [upsertRow, get_or_create, hf, hmem]
  | none =>
    have hnmem : row.link ∉ db.map Article.url := by
      intro hmem
      rcases List.mem_map.mp hmem with ⟨a, ha, hurl⟩
      have := List.find?_eq_none.mp hf a ha
      simp [hurl] at this
    simp [upsertRow, get_or_create, hf, hnmem]

theorem upsertRow_mem (p : String → Option Nat) (now : Nat) (db : List Article)
    (row : RawRecord) :
    row.link ∈ (upsertRow p now db row).1.map Article.url := by
  rw [upsertRow_urls]
  by_cases h : row.link ∈ db.map Article.url <;> simp [h]

theorem upsertRow_urls_mono (p : String → Option Nat) (now : Nat) (db : List Article)
    (row : RawRecord) {x : String} (h : x ∈ db.map Article.url) :
    x ∈ (upsertRow p now db row).1.map Article.url := by
  rw [upsertRow_urls]
  by_cases hm : row.link ∈ db.map Article.url <;> simp [hm, h]

theorem upsertRow_length (p : String → Option Nat) (now : Nat) (db : List Article)
    (row : RawRecord) :
    (upsertRow p now db row).1.length = db.length + (upsertRow p now db row).2 := by
  have hurls := congrArg List.length (upsertRow_urls p now db row)
  rw [List.length_map] at hurls
  rw [upsertRow_created]
  by_cases h : row.link ∈ db.map Article.url <;>
    simp [h] at hurls ⊢ <;> omega

theorem save_urls_mono (p : String → Option Nat) (now : Nat) {x : String} :
    ∀ (rows : List RawRecord) (db : List Article), x ∈ db.map Article.url →
      x ∈ (save_articles_to_database p now db rows).1.map Article.url := by
  intro rows
  induction rows with
  | nil =>
    intro db h
    simpa [save_articles_to_database] using h
  | cons row rest ih =>
    intro db h
    rw [save_articles_to_database]
    exact ih _ (upsertRow_urls_mono p now db row h)

theorem save_covers (p : String → Option Nat) (now : Nat) :
    ∀ (rows : List RawRecord) (db : List Article), ∀ r ∈ rows,
      r.link ∈ (save_articles_to_database p now db rows).1.map Article.url := by
  intro rows
  induction rows with
  | nil => intro db r hr; simp at hr
  | cons row rest ih =>
    intro db r hr
    rw [save_articles_to_database]
    rcases List.mem_cons.mp hr with rfl | hr
    · exact save_urls_mono p now rest _ (upsertRow_mem p now db r)
    · exact ih _ r hr

theorem save_created_zero (p : String → Option Nat) (now : Nat) :
    ∀ (rows : List RawRecord) (db : List Article),
      (∀ r ∈ rows, r.link ∈ db.map Article.url) →
      (save_articles_to_database p now db rows).2 = 0 := by
  intro rows
  induction rows with
  | nil => intro db _; simp [save_articles_to_database]
  | cons row rest ih =>
    intro db h
    rw [save_articles_to_database]
    have hstep : (upsertRow p now db row).2 = 0 := by
      rw [upsertRow_created, if_pos (h row (List.mem_cons_self _ _))]
    have hrest : (save_articles_to_database p now (upsertRow p now db row).1 rest).2 = 0 :=
      ih _ (fun r hr => upsertRow_urls_mono p now db row (h r (List.mem_cons_of_mem _ hr)))
    simp [hstep, hrest]

theorem save_nodup (p : String → Option Nat) (now : Nat) :
    ∀ (rows : List RawRecord) (db : List Article), (db.map Article.url).Nodup →
      ((save_articles_to_database p now db rows).1.map Article.url).Nodup := by
  intro rows
  induction rows with
  | nil => intro db h; simpa [save_articles_to_database] using h
  | cons row rest ih =>
    intro db h
    rw [save_articles_to_database]
    refine ih _ ?_
    rw [upsertRow_urls]
    by_cases hm : row.link ∈ db.map Article.url
    · simpa [hm] using h
    · simp [hm, List.nodup_append, h]

theorem save_length (p : String → Option Nat) (now : Nat) :
    ∀ (rows : List RawRecord) (db : List Article),
      (save_articles_to_database p now db rows).1.length =
        db.length + (save_articles_to_database p now db rows).2 := by
  intro rows
  induction rows with
  | nil => intro db; simp [save_articles_to_database]
  | cons row rest ih =>
    intro db
    rw [save_articles_to_database]
    have h1 := upsertRow_length p now db row
    have h2 := ih (upsertRow p now db row).1
    simp only []
    omega

theorem ingest_nodup (p : String → Option Nat) (now : Nat) :
    ∀ (batches : List (List RawRecord)) (db : List Article),
      (db.map Article.url).Nodup →
      ((ingestAll p now db batches).map Article.url).Nodup := by
  intro batches
  induction batches with
  | nil => intro db h; simpa [ingestAll] using h
  | cons batch rest ih =>
    intro db h
    rw [ingestAll]
    exact ih _ (save_nodup p now batch db h)

/-! ### Claims C6, C1, C4 -/

/-- C6: the orchestrator isolates extractor failures: with twelve registered
extractors of which exactly one raises, the run completes, the collected
records are exactly the concatenation of every extractor's contribution
(a raising extractor contributing `[]`), and exactly one source is reported
failed. -/
theorem C6_orchestrator_isolates_failures
    (scrapers : List (String × Except String (List RawRecord)))
    (_h12 : scrapers.length = 12)
    (hone : scrapers.countP (fun s => isErr s.2) = 1) :
    (scrape_all_news scrapers).1 = (scrapers.map (fun s => okRecords s.2)).flatten
    ∧ (scrape_all_news scrapers).2.length = 1 := by
  refine ⟨scrape_all_news_records scrapers, ?_⟩
  rw [scrape_all_news_failed, hone]

/-- Witness for C6: eleven succeeding extractors and one that raises. -/
theorem C6_orchestrator_isolates_failures_witness :
    (scrape_all_news
      [("TechCrunch", Except.ok []), ("The Verge", Except.ok []),
       ("Indian Express", Except.ok []), ("Economic Times", Except.ok []),
       ("Indian Express", Except.ok []), ("Hindustan Times", Except.ok []),
       ("Economic Times", Except.ok []), ("NY Times", Except.ok []),
       ("Indian Express", Except.ok []),
       ("Fox News", Except.error "KeyError"),
       ("Indian Express", Except.ok
         [{ title := "T", link := "L", image := "", source := "Indian Express",
            category := "entertainment", datetime := "" }]),
       ("Variety", Except.ok [])]).2.length = 1 :=
  (C6_orchestrator_isolates_failures
      [("TechCrunch", Except.ok []), ("The Verge", Except.ok []),
       ("Indian Express", Except.ok []), ("Economic Times", Except.ok []),
       ("Indian Express", Except.ok []), ("Hindustan Times", Except.ok []),
       ("Economic Times", Except.ok []), ("NY Times", Except.ok []),
       ("Indian Express", Except.ok []),
       ("Fox News", Except.error "KeyError"),
       ("Indian Express", Except.ok
         [{ title := "T", link := "L", image := "", source := "Indian Express",
            category := "entertainment", datetime := "" }]),
       ("Variety", Except.ok [])] rfl (by decide)).2

/-- C1: ingestion is idempotent and keyed by link: starting from the empty
stored collection, any sequence of ingested batches leaves at most one
stored article per distinct link; re-ingesting the exact same batch returns
`created_count = 0`; and the count returned counts exactly the newly created
records (the table grows by precisely that amount, updates adding none). -/
theorem C1_ingestion_idempotent_by_link (p : String → Option Nat)
    (now now1 now2 : Nat) (batches : List (List RawRecord))
    (db : List Article) (rows : List RawRecord) :
    ((ingestAll p now [] batches).map Article.url).Nodup
    ∧ (save_articles_to_database p now2
        (save_articles_to_database p now1 db rows).1 rows).2 = 0
    ∧ (save_articles_to_database p now1 db rows).1.length =
        db.length + (save_articles_to_database p now1 db rows).2 := by
  refine ⟨ingest_nodup p now batches [] (by simp), ?_, save_length p now1 rows db⟩
  exact save_created_zero p now2 rows _ (fun r hr => save_covers p now1 rows db r hr)

/-- C4: on upserting a row whose link is already stored, no creation is
counted and the table is rewritten in place; the update overwrites
title/source/category/image unconditionally, never touches `created_at`,
and overwrites `published_at` only when the stored value is null and the
new timestamp parses. -/
theorem C4_upsert_frame (p : String → Option Nat) (now : Nat) (db : List Article)
    (row : RawRecord) (a : Article) :
    (row.link ∈ db.map Article.url →
      (upsertRow p now db row).2 = 0 ∧
      (upsertRow p now db row).1 =
        db.map (fun b => if b.url = row.link then updateArticle p row b else b))
    ∧ (updateArticle p row a).title = row.title
    ∧ (updateArticle p row a).source = row.source
    ∧ (updateArticle p row a).category = row.category
    ∧ (updateArticle p row a).image = row.image
    ∧ (updateArticle p row a).created_at = a.created_at
    ∧ (a.published_at = none →
        (parse_publication_datetime p row.datetime).isSome = true →
        (updateArticle p row a).published_at = parse_publication_datetime p row.datetime)
    ∧ (a.published_at ≠ none →
        (updateArticle p row a).published_at = a.published_at)
    ∧ (parse_publication_datetime p row.datetime = none →
        (updateArticle p row a).published_at = a.published_at) := by
  refine ⟨?_, rfl, rfl, rfl, rfl, rfl, ?_, ?_, ?_⟩
  · intro hmem
    have hsome : (db.find? (fun b => b.url == row.link)).isSome = true := by
      rcases List.mem_map.mp hmem with ⟨b, hb, hurl⟩
      exact List.find?_isSome.mpr ⟨b, hb, by simp [hurl]⟩
    rcases Option.isSome_iff_exists.mp hsome with ⟨b, hf⟩
    constructor
    · rw [upsertRow_created, if_pos hmem]
    · simp [upsertRow, get_or_create, hf]
  · intro h1 h2
    simp [updateArticle, h1, h2]
  · intro h1
    simp [updateArticle, h1]
  · intro h1
    simp [updateArticle, h1]

/-- Witness for C4: a stored article with link `L` (null `published_at`),
re-ingested with a parseable timestamp; plus an already-set `published_at`
left unchanged, and an unparseable timestamp leaving it unchanged. -/
theorem C4_upsert_frame_witness :
    ((upsertRow (fun _ => some 42) 9
        [{ title := "t0", image := "", url := "L", source := "s",
           category := "technology", published_at := none, created_at := 7 }]
        { title := "T", link := "L", image := "", source := "S",
          category := "technology", datetime := "d" }).2 = 0
      ∧ (upsertRow (fun _ => some 42) 9
          [{ title := "t0", image := "", url := "L", source := "s",
             category := "technology", published_at := none, created_at := 7 }]
          { title := "T", link := "L", image := "", source := "S",
            category := "technology", datetime := "d" }).1 =
        [{ title := "t0", image := "", url := "L", source := "s",
           category := "technology", published_at := none, created_at := 7 }].map
          (fun b => if b.url =
              ({ title := "T", link := "L", image := "", source := "S",
                 category := "technology", datetime := "d" } : RawRecord).link then
              updateArticle (fun _ => some 42)
                { title := "T", link := "L", image := "", source := "S",
                  category := "technology", datetime := "d" } b
            else b))
    ∧ (updateArticle (fun _ => some 42)
        { title := "T", link := "L", image := "", source := "S",
          category := "technology", datetime := "d" }
        { title := "t0", image := "", url := "L", source := "s",
          category := "technology", published_at := none, created_at := 7 }).published_at =
        parse_publication_datetime (fun _ => some 42)
          ({ title := "T", link := "L", image := "", source := "S",
             category := "technology", datetime := "d" } : RawRecord).datetime
    ∧ (updateArticle (fun _ => some 42)
        { title := "T", link := "L", image := "", source := "S",
          category := "technology", datetime := "d" }
        { title := "t0", image := "", url := "L", source := "s",
          category := "technology", published_at := some 5, created_at := 7 }).published_at =
        some 5
    ∧ (updateArticle (fun _ => none)
        { title := "T", link := "L", image := "", source := "S",
          category := "technology", datetime := "d" }
        { title := "t0", image := "", url := "L", source := "s",
          category := "technology", published_at := none, created_at := 7 }).published_at =
        none :=
  ⟨(C4_upsert_frame (fun _ => some 42) 9 _ _
      { title := "t0", image := "", url := "L", source := "s",
        category := "technology", published_at := none, created_at := 7 }).1
      (by decide),
   (C4_upsert_frame (fun _ => some 42) 9 [] _ _).2.2.2.2.2.2.1 rfl (by decide),
   (C4_upsert_frame (fun _ => some 42) 9 [] _ _).2.2.2.2.2.2.2.1 (by decide),
   (C4_upsert_frame (fun _ => none) 9 [] _ _).2.2.2.2.2.2.2.2 (by decide)⟩

/-! ### Helper lemmas: Fox News pipeline -/

theorem dedupFirst_sub {r : FoxRow} (l : List FoxRow) :
    ∀ (seen : List String), r ∈ dedupFirst l seen → r ∈ l := by
  induction l with
  | nil => intro seen h; simp [dedupFirst] at h
  | cons a rest ih =>
    intro seen h
    rw [dedupFirst] at h
    split at h
    · exact List.mem_cons_of_mem _ (ih _ h)
    · rcases List.mem_cons.mp h with rfl | h
      · exact List.mem_cons_self _ _
      · exact List.mem_cons_of_mem _ (ih _ h)

theorem dedupFirst_not_seen (l : List FoxRow) :
    ∀ (seen : List String), ∀ r ∈ dedupFirst l seen, r.link ∉ seen := by
  induction l with
  | nil => intro seen r h; simp [dedupFirst] at h
  | cons a rest ih =>
    intro seen r h
    rw [dedupFirst] at h
    split at h
    · exact ih _ r h
    · rename_i hnot
      rcases List.mem_cons.mp h with rfl | h
      · exact hnot
      · intro hmem
        exact (ih _ r h) (List.mem_cons_of_mem _ hmem)

theorem dedupFirst_nodup (l : List FoxRow) :
    ∀ (seen : List String), ((dedupFirst l seen).map FoxRow.link).Nodup := by
  induction l with
  | nil => intro seen; simp [dedupFirst]
  | cons a rest ih =>
    intro seen
    rw [dedupFirst]
    split
    · exact ih _
    · refine List.nodup_cons.mpr ⟨?_, ih _⟩
      intro hmem
      rcases List.mem_map.mp hmem with ⟨q, hq, hlink⟩
      have hq2 := dedupFirst_not_seen rest (a.link :: seen) q hq
      exact hq2 (by rw [hlink]; exact List.mem_cons_self _ _)

theorem foxAccepted_mem {q : FoxRow} {blocks : List FoxBlock} (h : q ∈ foxAccepted blocks) :
    q.title ≠ "" ∧ containsSub q.link "/health/" := by
  simp only [foxAccepted, List.mem_filterMap] at h
  obtain ⟨b, -, hb⟩ := h
  split at hb
  · rename_i hcond
    injection hb with hb
    subst hb
    exact ⟨hcond.1, hcond.2⟩
  · exact absurd hb (by simp)

theorem foxPipeline_mem (p : String → Option Nat) (fmt : Nat → String)
    {r : RawRecord} {rows : List FoxRow} (h : r ∈ foxPipeline p fmt rows) :
    ∃ q ∈ dedupFirst rows [], q.datetime ≠ [] ∧ r.link = q.link ∧ r.title = q.title ∧
      r.datetime = format_datetime p fmt (q.datetime.headD "") := by
  simp only [foxPipeline, List.mem_map, List.mem_filter] at h
  rcases h with ⟨q, ⟨hq, hdt⟩, rfl⟩
  refine ⟨q, hq, ?_, rfl, rfl, rfl⟩
  intro heq
  rw [heq] at hdt
  simp at hdt

theorem foxPipeline_nodup (p : String → Option Nat) (fmt : Nat → String)
    (rows : List FoxRow) : ((foxPipeline p fmt rows).map RawRecord.link).Nodup := by
  have h1 : (foxPipeline p fmt rows).map RawRecord.link =
      ((dedupFirst rows []).filter (fun q => q.datetime.length != 0)).map FoxRow.link := by
    rw [foxPipeline, List.map_map]
    exact List.map_congr_left (fun q _ => rfl)
  rw [h1]
  exact List.Nodup.sublist (List.Sublist.map _ (List.filter_sublist _)) (dedupFirst_nodup rows [])

/-- C9: when the Fox News fetch succeeds but zero candidate blocks pass the
filters, the extractor raises (`drop_duplicates('link')` on an empty frame
with no columns) instead of returning an empty sequence; with at least one
accepted candidate it returns link-deduplicated records drawn from accepted
rows whose datetime list is non-empty. -/
theorem C9_foxnews_empty_raises (p : String → Option Nat) (fmt : Nat → String)
    (blocks : List FoxBlock) :
    (foxAccepted blocks = [] →
      scrape_lifestyle_foxnews p fmt (some blocks) = Except.error ())
    ∧ (foxAccepted blocks ≠ [] →
      scrape_lifestyle_foxnews p fmt (some blocks) =
          Except.ok (foxPipeline p fmt (foxAccepted blocks))
        ∧ ((foxPipeline p fmt (foxAccepted blocks)).map RawRecord.link).Nodup
        ∧ ∀ r ∈ foxPipeline p fmt (foxAccepted blocks),
            ∃ q ∈ foxAccepted blocks, q.datetime ≠ [] ∧ r.link = q.link ∧
              r.title = q.title ∧
              r.datetime = format_datetime p fmt (q.datetime.headD "")) := by
  constructor
  · intro h
    simp [scrape_lifestyle_foxnews, h]
  · intro h
    refine ⟨by simp [scrape_lifestyle_foxnews, h], foxPipeline_nodup p fmt _, ?_⟩
    intro r hr
    rcases foxPipeline_mem p fmt hr with ⟨q, hq, hdt, h1, h2, h3⟩
    exact ⟨q, dedupFirst_sub _ _ hq, hdt, h1, h2, h3⟩

/-- Witness for C9: a filtered-out-only page raises; one accepted candidate
yields the deduplicated output. -/
theorem C9_foxnews_empty_raises_witness :
    scrape_lifestyle_foxnews wParse wFmt
        (some [{ title := "", href := "/health/a", image := "", dtList := [] }]) =
      Except.error ()
    ∧ scrape_lifestyle_foxnews wParse wFmt (some [wFox]) =
      Except.ok (foxPipeline wParse wFmt (foxAccepted [wFox])) :=
  ⟨(C9_foxnews_empty_raises wParse wFmt
      [{ title := "", href := "/health/a", image := "", dtList := [] }]).1 (by decide),
   ((C9_foxnews_empty_raises wParse wFmt [wFox]).2 (by decide)).1⟩

/-! ### Claim C7 -/

/-- C7: for every extractor and every fetched document, no emitted record has
an empty title: each extractor discards a candidate whose extracted title is
empty before appending the record (the Fox News extractor additionally runs
its pandas pipeline, which never alters titles). -/
theorem C7_no_empty_titles (p : String → Option Nat) (fmt : Nat → String)
    (dom : Option (List Block)) (fdom : Option (List FoxBlock)) (r : RawRecord) :
    (r ∈ scrape_tech_techcrunch p fmt dom → r.title ≠ "")
    ∧ (r ∈ scrape_tech_theverge p fmt dom → r.title ≠ "")
    ∧ (r ∈ scrape_economy_indianexpress p fmt dom → r.title ≠ "")
    ∧ (r ∈ scrape_economy_economictimes p fmt dom → r.title ≠ "")
    ∧ (r ∈ scrape_sports_indianexpress p fmt dom → r.title ≠ "")
    ∧ (r ∈ scrape_sports_hindustantimes p fmt dom → r.title ≠ "")
    ∧ (r ∈ scrape_politics_economictimes p fmt dom → r.title ≠ "")
    ∧ (r ∈ scrape_politics_nytimes p fmt dom → r.title ≠ "")
    ∧ (r ∈ scrape_lifestyle_indianexpress p fmt dom → r.title ≠ "")
    ∧ (∀ l, scrape_lifestyle_foxnews p fmt fdom = Except.ok l → r ∈ l → r.title ≠ "")
    ∧ (r ∈ scrape_entertainment_indianexpress p fmt dom → r.title ≠ "")
    ∧ (r ∈ scrape_entertainment_variety p fmt dom → r.title ≠ "") := by
  refine ⟨?_, ?_, ?_, ?_, ?_, ?_, ?_, ?_, ?_, ?_, ?_, ?_⟩
  · intro h
    cases dom with
    | none => simp [scrape_tech_techcrunch] at h
    | some blocks =>
      simp only [scrape_tech_techcrunch, List.mem_filterMap] at h
      obtain ⟨b, -, hb⟩ := h
      split at hb
      · rename_i hcond
        injection hb with hb
        subst hb
        exact hcond
      · exact absurd hb (by simp)
  · intro h
    cases dom with
    | none => simp [scrape_tech_theverge] at h
    | some blocks =>
      simp only [scrape_tech_theverge, List.mem_filterMap] at h
      obtain ⟨b, -, hb⟩ := h
      split at hb
      · rename_i hcond
        injection hb with hb
        subst hb
        exact hcond
      · exact absurd hb (by simp)
  · intro h
    cases dom with
    | none => simp [scrape_economy_indianexpress] at h
    | some blocks =>
      simp only [scrape_economy_indianexpress, List.mem_filterMap] at h
      obtain ⟨b, -, hb⟩ := h
      split at hb
      · rename_i hcond
        injection hb with hb
        subst hb
        exact hcond
      · exact absurd hb (by simp)
  · intro h
    cases dom with
    | none => simp [scrape_economy_economictimes] at h
    | some blocks =>
      simp only [scrape_economy_economictimes, List.mem_filterMap] at h
      obtain ⟨b, -, hb⟩ := h
      split at hb
      · rename_i hcond
        injection hb with hb
        subst hb
        exact hcond
      · exact absurd hb (by simp)
  · intro h
    cases dom with
    | none => simp [scrape_sports_indianexpress] at h
    | some blocks =>
      simp only [scrape_sports_indianexpress, List.mem_filterMap] at h
      obtain ⟨b, -, hb⟩ := h
      split at hb
      · rename_i hcond
        injection hb with hb
        subst hb
        exact hcond
      · exact absurd hb (by simp)
  · intro h
    cases dom with
    | none => simp [scrape_sports_hindustantimes] at h
    | some blocks =>
      simp only [scrape_sports_hindustantimes, List.mem_filterMap] at h
      obtain ⟨b, -, hb⟩ := h
      split at hb
      · rename_i hcond
        injection hb with hb
        subst hb
        exact hcond
      · exact absurd hb (by simp)
  · intro h
    cases dom with
    | none => simp [scrape_politics_economictimes] at h
    | some blocks =>
      simp only [scrape_politics_economictimes, List.mem_filterMap] at h
      obtain ⟨b, -, hb⟩ := h
      split at hb
      · rename_i hcond
        injection hb with hb
        subst hb
        exact hcond
      · exact absurd hb (by simp)
  · intro h
    cases dom with
    | none => simp [scrape_politics_nytimes] at h
    | some blocks =>
      simp only [scrape_politics_nytimes, List.mem_filterMap] at h
      obtain ⟨b, -, hb⟩ := h
      split at hb
      · rename_i hcond
        injection hb with hb
        subst hb
        exact hcond
      · exact absurd hb (by simp)
  · intro h
    cases dom with
    | none => simp [scrape_lifestyle_indianexpress] at h
    | some blocks =>
      simp only [scrape_lifestyle_indianexpress, List.mem_filterMap] at h
      obtain ⟨b, -, hb⟩ := h
      split at hb
      · rename_i hcond
        injection hb with hb
        subst hb
        exact hcond
      · exact absurd hb (by simp)
  · intro l hok hmem
    cases fdom with
    | none =>
      simp only [scrape_lifestyle_foxnews] at hok
      injection hok with hok
      subst hok
      simp at hmem
    | some blocks =>
      simp only [scrape_lifestyle_foxnews] at hok
      split at hok
      · exact Except.noConfusion hok
      · injection hok with hok
        subst hok
        rcases foxPipeline_mem p fmt hmem with ⟨q, hq, -, -, htitle, -⟩
        rw [htitle]
        exact (foxAccepted_mem (dedupFirst_sub _ _ hq)).1
  · intro h
    cases dom with
    | none => simp [scrape_entertainment_indianexpress] at h
    | some blocks =>
      simp only [scrape_entertainment_indianexpress, List.mem_filterMap] at h
      obtain ⟨b, -, hb⟩ := h
      split at hb
      · rename_i hcond
        injection hb with hb
        subst hb
        exact hcond
      · exact absurd hb (by simp)
  · intro h
    cases dom with
    | none => simp [scrape_entertainment_variety] at h
    | some blocks =>
      simp only [scrape_entertainment_variety, List.mem_filterMap] at h
      obtain ⟨b, -, hb⟩ := h
      split at hb
      · rename_i hcond
        injection hb with hb
        subst hb
        exact hcond.1
      · exact absurd hb (by simp)

/-- Witness for C7: every extractor applied to an accepted candidate block
emits a record with the non-empty title. -/
theorem C7_no_empty_titles_witness :
    ({ title := "T", link := "https://variety.com/film/x", image := "", source := "TechCrunch", category := "technology", datetime := "3 Oct 2025, 16:42" } : RawRecord).title ≠ ""
    ∧ ({ title := "T", link := "https://www.theverge.comhttps://variety.com/film/x", image := "", source := "The Verge", category := "technology", datetime := "3 Oct 2025, 16:42" } : RawRecord).title ≠ ""
    ∧ ({ title := "T", link := "https://variety.com/film/x", image := "", source := "Indian Express", category := "economy", datetime := "3 Oct 2025, 16:42" } : RawRecord).title ≠ ""
    ∧ ({ title := "T", link := "https://economictimes.indiatimes.comhttps://variety.com/film/x", image := "", source := "Economic Times", category := "economy", datetime := "3 Oct 2025, 16:42" } : RawRecord).title ≠ ""
    ∧ ({ title := "T", link := "https://variety.com/film/x", image := "", source := "Indian Express", category := "sports", datetime := "3 Oct 2025, 16:42" } : RawRecord).title ≠ ""
    ∧ ({ title := "T", link := "https://variety.com/film/x", image := "", source := "Hindustan Times", category := "sports", datetime := "3 Oct 2025, 16:42" } : RawRecord).title ≠ ""
    ∧ ({ title := "T", link := "https://economictimes.indiatimes.comhttps://variety.com/film/x", image := "", source := "Economic Times", category := "politics", datetime := "3 Oct 2025, 16:42" } : RawRecord).title ≠ ""
    ∧ ({ title := "T", link := "https://www.nytimes.comhttps://variety.com/film/x", image := "", source := "New York Times", category := "politics", datetime := "-variety.com-film" } : RawRecord).title ≠ ""
    ∧ ({ title := "T", link := "https://variety.com/film/x", image := "", source := "Indian Express", category := "lifestyle", datetime := "3 Oct 2025, 16:42" } : RawRecord).title ≠ ""
    ∧ ({ title := "T", link := "https://www.foxnews.com/health/a", image := "", source := "Fox News", category := "lifestyle", datetime := "now" } : RawRecord).title ≠ ""
    ∧ ({ title := "T", link := "https://variety.com/film/x", image := "", source := "Indian Express", category := "entertainment", datetime := "3 Oct 2025, 16:42" } : RawRecord).title ≠ ""
    ∧ ({ title := "T", link := "https://variety.com/film/x", image := "", source := "Variety", category := "entertainment", datetime := "3 Oct 2025, 16:42" } : RawRecord).title ≠ "" :=
  ⟨(C7_no_empty_titles wParse wFmt (some [wBlock]) (some [wFox])
      { title := "T", link := "https://variety.com/film/x", image := "", source := "TechCrunch", category := "technology", datetime := "3 Oct 2025, 16:42" }).1 (by decide),
   (C7_no_empty_titles wParse wFmt (some [wBlock]) (some [wFox])
      { title := "T", link := "https://www.theverge.comhttps://variety.com/film/x", image := "", source := "The Verge", category := "technology", datetime := "3 Oct 2025, 16:42" }).2.1 (by decide),
   (C7_no_empty_titles wParse wFmt (some [wBlock]) (some [wFox])
      { title := "T", link := "https://variety.com/film/x", image := "", source := "Indian Express", category := "economy", datetime := "3 Oct 2025, 16:42" }).2.2.1 (by decide),
   (C7_no_empty_titles wParse wFmt (some [wBlock]) (some [wFox])
      { title := "T", link := "https://economictimes.indiatimes.comhttps://variety.com/film/x", image := "", source := "Economic Times", category := "economy", datetime := "3 Oct 2025, 16:42" }).2.2.2.1 (by decide),
   (C7_no_empty_titles wParse wFmt (some [wBlock]) (some [wFox])
      { title := "T", link := "https://variety.com/film/x", image := "", source := "Indian Express", category := "sports", datetime := "3 Oct 2025, 16:42" }).2.2.2.2.1 (by decide),
   (C7_no_empty_titles wParse wFmt (some [wBlock]) (some [wFox])
      { title := "T", link := "https://variety.com/film/x", image := "", source := "Hindustan Times", category := "sports", datetime := "3 Oct 2025, 16:42" }).2.2.2.2.2.1 (by decide),
   (C7_no_empty_titles wParse wFmt (some [wBlock]) (some [wFox])
      { title := "T", link := "https://economictimes.indiatimes.comhttps://variety.com/film/x", image := "", source := "Economic Times", category := "politics", datetime := "3 Oct 2025, 16:42" }).2.2.2.2.2.2.1 (by decide),
   (C7_no_empty_titles wParse wFmt (some [wBlock]) (some [wFox])
      { title := "T", link := "https://www.nytimes.comhttps://variety.com/film/x", image := "", source := "New York Times", category := "politics", datetime := "-variety.com-film" }).2.2.2.2.2.2.2.1 (by decide),
   (C7_no_empty_titles wParse wFmt (some [wBlock]) (some [wFox])
      { title := "T", link := "https://variety.com/film/x", image := "", source := "Indian Express", category := "lifestyle", datetime := "3 Oct 2025, 16:42" }).2.2.2.2.2.2.2.2.1 (by decide),
   (C7_no_empty_titles wParse wFmt (some [wBlock]) (some [wFox])
      { title := "T", link := "https://www.foxnews.com/health/a", image := "", source := "Fox News", category := "lifestyle", datetime := "now" }).2.2.2.2.2.2.2.2.2.1
      (foxPipeline wParse wFmt (foxAccepted [wFox])) rfl (by decide),
   (C7_no_empty_titles wParse wFmt (some [wBlock]) (some [wFox])
      { title := "T", link := "https://variety.com/film/x", image := "", source := "Indian Express", category := "entertainment", datetime := "3 Oct 2025, 16:42" }).2.2.2.2.2.2.2.2.2.2.1 (by decide),
   (C7_no_empty_titles wParse wFmt (some [wBlock]) (some [wFox])
      { title := "T", link := "https://variety.com/film/x", image := "", source := "Variety", category := "entertainment", datetime := "3 Oct 2025, 16:42" }).2.2.2.2.2.2.2.2.2.2.2 (by decide)⟩

/-! ### Helper lemmas: recommendation fill loop -/

theorem fillPass_mem {x : Headline} : ∀ (hs acc : List Headline),
    x ∈ fillPass hs acc → x ∈ acc ∨ x ∈ hs := by
  intro hs
  induction hs with
  | nil =>
    intro acc h
    rw [fillPass] at h
    exact Or.inl h
  | cons h2 hs ih =>
    intro acc hx
    simp only [fillPass] at hx
    split at hx
    · rcases ih _ hx with h | h
      · exact Or.inl h
      · exact Or.inr (List.mem_cons_of_mem _ h)
    · split at hx
      · rcases List.mem_append.mp hx with h | h
        · exact Or.inl h
        · exact Or.inr (by simp [List.mem_singleton.mp h])
      · rcases ih _ hx with h | h
        · rcases List.mem_append.mp h with h | h
          · exact Or.inl h
          · exact Or.inr (by simp [List.mem_singleton.mp h])
        · exact Or.inr (List.mem_cons_of_mem _ h)

theorem fillPass_sub {x : Headline} : ∀ (hs acc : List Headline),
    x ∈ acc → x ∈ fillPass hs acc := by
  intro hs
  induction hs with
  | nil =>
    intro acc h
    rw [fillPass]
    exact h
  | cons h2 hs ih =>
    intro acc h
    simp only [fillPass]
    split
    · exact ih _ h
    · split
      · exact List.mem_append.mpr (Or.inl h)
      · exact ih _ (List.mem_append.mpr (Or.inl h))

theorem fillPass_covers : ∀ (hs acc : List Headline),
    5 ≤ (fillPass hs acc).length ∨ ∀ h ∈ hs, h ∈ fillPass hs acc := by
  intro hs
  induction hs with
  | nil =>
    intro acc
    right
    intro h hh
    simp at hh
  | cons h2 hs ih =>
    intro acc
    simp only [fillPass]
    split
    · rename_i hin
      rcases ih acc with h5 | hall
      · exact Or.inl h5
      · right
        intro h hh
        rcases List.mem_cons.mp hh with rfl | hh
        · exact fillPass_sub hs acc hin
        · exact hall h hh
    · split
      · rename_i hlen
        exact Or.inl hlen
      · rcases ih (acc ++ [h2]) with h5 | hall
        · exact Or.inl h5
        · right
          intro h hh
          rcases List.mem_cons.mp hh with rfl | hh
          · exact fillPass_sub hs _ (List.mem_append.mpr (Or.inr (List.mem_singleton.mpr rfl)))
          · exact hall h hh

theorem fillPass_take : ∀ (hs acc : List Headline), hs.Nodup →
    (∀ h ∈ hs, h ∉ acc) → acc.length < 5 →
    fillPass hs acc = acc ++ hs.take (5 - acc.length) := by
  intro hs
  induction hs with
  | nil =>
    intro acc _ _ _
    simp [fillPass]
  | cons h2 hs ih =>
    intro acc hnd hnin hlen
    simp only [fillPass]
    rw [if_neg (hnin h2 (List.mem_cons_self _ _))]
    by_cases h5 : 5 ≤ (acc ++ [h2]).length
    · rw [if_pos h5]
      have h4 : acc.length = 4 := by
        simp at h5
        omega
      have hk : 5 - acc.length = 1 := by omega
      simp [hk]
    · rw [if_neg h5]
      have hnd2 := (List.nodup_cons.mp hnd).2
      have hhd := (List.nodup_cons.mp hnd).1
      have hnin2 : ∀ h ∈ hs, h ∉ acc ++ [h2] := by
        intro h hh hmem
        rcases List.mem_append.mp hmem with hm | hm
        · exact hnin h (List.mem_cons_of_mem _ hh) hm
        · exact hhd (List.mem_singleton.mp hm ▸ hh)
      have hlen2 : (acc ++ [h2]).length < 5 := by
        simp at h5 ⊢
        omega
      rw [ih (acc ++ [h2]) hnd2 hnin2 hlen2]
      have hk : 5 - acc.length = (5 - (acc ++ [h2]).length) + 1 := by
        simp
        omega
      rw [hk, List.take_succ_cons]
      simp

theorem fillLoop_stop {headlines acc : List Headline}
    (h : ¬(acc.length < 5 ∧ acc.length < headlines.length)) :
    ∀ n, fillLoop headlines n acc = some acc := by
  intro n
  cases n <;> simp [fillLoop, h]

theorem fillLoop_step {headlines acc : List Headline} {n : Nat}
    (h : acc.length < 5 ∧ acc.length < headlines.length) :
    fillLoop headlines (n + 1) acc = fillLoop headlines n (fillPass headlines acc) := by
  simp [fillLoop, h]

theorem nodup_length_le {l₁ l₂ : List Headline} (hnd : l₁.Nodup)
    (hsub : ∀ x ∈ l₁, x ∈ l₂) : l₁.length ≤ l₂.length := by
  calc l₁.length = l₁.toFinset.card := (List.toFinset_card_of_nodup hnd).symm
    _ ≤ l₂.toFinset.card :=
      Finset.card_le_card (fun x hx => List.mem_toFinset.mpr (hsub x (List.mem_toFinset.mp hx)))
    _ ≤ l₂.length := l₂.toFinset_card_le

theorem fillLoop_total {headlines : List Headline} (hnd : headlines.Nodup)
    (acc : List Headline) :
    ∃ out, fillLoop headlines 6 acc = some out ∧ ∀ x ∈ out, x ∈ acc ∨ x ∈ headlines := by
  by_cases h1 : acc.length < 5 ∧ acc.length < headlines.length
  · rw [fillLoop_step h1]
    by_cases h2 : (fillPass headlines acc).length < 5 ∧
        (fillPass headlines acc).length < headlines.length
    · exfalso
      rcases fillPass_covers headlines acc with h5 | hall
      · omega
      · exact absurd (nodup_length_le hnd hall) (by omega)
    · rw [fillLoop_stop h2]
      exact ⟨_, rfl, fun x hx => fillPass_mem headlines acc hx⟩
  · rw [fillLoop_stop h1]
    exact ⟨acc, rfl, fun x hx => Or.inl hx⟩

theorem fillLoop_nil {headlines : List Headline} (hnd : headlines.Nodup) :
    fillLoop headlines 6 [] = some (headlines.take 5) := by
  by_cases h0 : headlines = []
  · subst h0
    rw [fillLoop_stop (by simp)]
    simp
  · have hcond : ([] : List Headline).length < 5 ∧
        ([] : List Headline).length < headlines.length := by
      simp [List.length_pos.mpr h0]
    rw [fillLoop_step hcond]
    have hpass : fillPass headlines [] = headlines.take 5 := by
      have := fillPass_take headlines [] hnd (by simp) (by simp)
      simpa using this
    rw [hpass, fillLoop_stop]
    rw [List.length_take]
    omega

theorem parseIndices_nil {r : String} {n : Nat}
    (h : ∀ item ∈ pySplit r ",", pyInt item = none) : parseIndices r n = [] := by
  rw [parseIndices, List.filterMap_eq_nil_iff]
  intro item hitem
  simp [h item hitem]

/-! ### Claim C8 -/

/-- C8 counterexample: with the duplicate candidate list `[h, h]` and an
erroring LLM service, `personalize_recommendations` does not return the
first-5 fallback (or anything else): the fill loop repeats a fixed point
forever (modelled as `none`), because after the single duplicate value is
added once, `len(rec) = 1 < 5` and `1 < len(headlines) = 2` stay true while
no pass can add anything. -/
theorem C8_rank_counterexample :
    personalize_recommendations true (SvcResult.err "boom") ["technology"]
        [{ title := "T", source := "S" }, { title := "T", source := "S" }] = none
    ∧ personalize_recommendations true (SvcResult.err "boom") ["technology"]
        [{ title := "T", source := "S" }, { title := "T", source := "S" }] ≠
      some ([{ title := "T", source := "S" }, { title := "T", source := "S" }].take 5) :=
  ⟨by decide, by decide⟩

/-- C8 (amended): provided the candidate list has no duplicate entries, the
ranking operation terminates and returns a list of at most 5 entries each
drawn from the candidate list, and when the backing LLM service errors it
returns the first 5 candidates instead of propagating the failure. -/
theorem C8_rank_fallback_amended (client : Bool) (e : String) (svc : SvcResult)
    (user_interests : List String) (headlines : List Headline)
    (hnd : headlines.Nodup) :
    (∃ result,
      personalize_recommendations client svc user_interests headlines = some result
        ∧ result.length ≤ 5 ∧ ∀ x ∈ result, x ∈ headlines)
    ∧ personalize_recommendations client (SvcResult.err e) user_interests headlines =
        some (headlines.take 5) := by
  have main : ∀ (cl : Bool) (sv : SvcResult),
      ∃ result,
        personalize_recommendations cl sv user_interests headlines = some result
          ∧ result.length ≤ 5 ∧ ∀ x ∈ result, x ∈ headlines := by
    intro cl sv
    by_cases h0 : headlines = []
    · exact ⟨[], by simp [personalize_recommendations, h0], by simp, by simp⟩
    · by_cases hi : user_interests = []
      · exact ⟨headlines.take 5, by simp [personalize_recommendations, h0, hi],
          headlines.length_take_le 5, fun x hx => List.mem_of_mem_take hx⟩
      · simp only [personalize_recommendations, h0, hi, if_false]
        have haccmem : ∀ x ∈ (parseIndices (generate_content cl sv)
            headlines.length).filterMap (fun idx =>
              if idx < headlines.length then headlines.get? idx else none),
            x ∈ headlines := by
          intro x hx
          rcases List.mem_filterMap.mp hx with ⟨idx, -, hidx⟩
          split at hidx
          · exact List.get?_mem hidx
          · exact absurd hidx (by simp)
        rcases fillLoop_total hnd ((parseIndices (generate_content cl sv)
            headlines.length).filterMap (fun idx =>
              if idx < headlines.length then headlines.get? idx else none)) with
          ⟨out, hout, houtmem⟩
        refine ⟨out.take 5, ?_, out.length_take_le 5, ?_⟩
        · rw [hout]
        · intro x hx
          rcases houtmem x (List.mem_of_mem_take hx) with h | h
          · exact haccmem x h
          · exact h
  refine ⟨main client svc, ?_⟩
  by_cases h0 : headlines = []
  · simp [personalize_recommendations, h0]
  · by_cases hi : user_interests = []
    · simp [personalize_recommendations, h0, hi]
    · have hnone : ∀ item ∈ pySplit (generate_content client (SvcResult.err e)) ",",
          pyInt item = none := by
        simp only [generate_content]
        split_ifs <;> decide
      have hidx : parseIndices (generate_content client (SvcResult.err e))
          headlines.length = [] := parseIndices_nil hnone
      simp only [personalize_recommendations, h0, hi, if_false, hidx,
        List.filterMap_nil, fillLoop_nil hnd]
      rw [List.take_take]
      simp

/-- Witness for C8 (amended) at a duplicate-free two-headline list with an
erroring service. -/
theorem C8_rank_fallback_amended_witness :
    personalize_recommendations true (SvcResult.err "boom") ["technology"]
        [{ title := "A", source := "S" }, { title := "B", source := "S" }] =
      some ([{ title := "A", source := "S" },
             { title := "B", source := "S" }].take 5) :=
  (C8_rank_fallback_amended true "boom" (SvcResult.err "boom") ["technology"]
    [{ title := "A", source := "S" }, { title := "B", source := "S" }] (by decide)).2

end NewsScraper
